import Mathlib

/-!
Shallow embedding of the NBA player-performance dashboard `src/app3.py`,
together with theorems checking the natural-language specification
against it.  Pure Python functions become Lean functions; the external
API client (`nba_api`), which supplies the player directory, the team
directory and the per-season game logs, is modelled as an explicit
environment of directory snapshots and fetch functions.  The Streamlit
rendering calls are modelled only to the extent the claims need: the
data each chart panel would receive.
-/

namespace App3

/-- An entry of the external player directory (`players.get_players()`). -/
structure Player where
  full_name : String
  id : Nat
deriving DecidableEq

/-- An entry of the external team directory (`teams.get_teams()`). -/
structure Team where
  full_name : String
  id : Nat
  abbreviation : String
deriving DecidableEq

/-- One row of a game log as returned by `PlayerGameLog`: the date (as a
comparable ordinal, after `pd.to_datetime`), the matchup string, and the
three counting stats (integers after `pd.to_numeric`). -/
structure GameRecord where
  game_date : Nat
  matchup : String
  pts : Int
  reb : Int
  ast : Int
deriving DecidableEq

/-- Python's `str.lower()`: lower-case every character (character-wise
map over the string's characters, matching ASCII names). -/
def strLower (s : String) : String := ⟨s.data.map Char.toLower⟩

/-- `get_player_id` from app3.py lines 9-14: scan the player directory and
return the id of the first entry whose full name matches the input
case-insensitively; `none` when no entry matches. -/
def get_player_id (player_list : List Player) (player_name : String) : Option Nat :=
  match player_list with
  | [] => none
  | p :: rest =>
      if strLower p.full_name = strLower player_name then some p.id
      else get_player_id rest player_name

/-- `get_team_id` from app3.py lines 17-22. -/
def get_team_id (team_list : List Team) (team_name : String) : Option Nat :=
  match team_list with
  | [] => none
  | t :: rest =>
      if strLower t.full_name = strLower team_name then some t.id
      else get_team_id rest team_name

/-- `get_team_abbreviation` from app3.py lines 25-30. -/
def get_team_abbreviation (team_list : List Team) (team_id : Nat) : Option String :=
  match team_list with
  | [] => none
  | t :: rest =>
      if t.id = team_id then some t.abbreviation
      else get_team_abbreviation rest team_id

/-- `pat` occurs at the head of `cs`. -/
def leadsWith : List Char → List Char → Bool
  | _, [] => true
  | [], _ :: _ => false
  | c :: cs, p :: ps => c = p && leadsWith cs ps

/-- `pat` occurs somewhere inside `cs` as a contiguous run. -/
def occursIn : List Char → List Char → Bool
  | [], pat => pat.isEmpty
  | c :: cs, pat => leadsWith (c :: cs) pat || occursIn cs pat

/-- Plain substring containment on strings.  Models the pandas test
`df['MATCHUP'].str.contains(team_abbreviation)` of app3.py line 54: NBA
team abbreviations contain no regex metacharacters, so the pandas regex
match coincides with literal substring containment. -/
def strContains (s pat : String) : Bool :=
  occursIn s.data pat.data

/-- The opponent filter of app3.py line 54: keep the rows whose MATCHUP
string contains the team abbreviation. -/
def matchupFilter (abbr : String) (df : List GameRecord) : List GameRecord :=
  df.filter (fun r => strContains r.matchup abbr)

/-- Python truthiness of an optional integer id (`if not player_id`):
falsy when absent or zero. -/
def pyTruthyNat : Option Nat → Bool
  | none => false
  | some i => !(i == 0)

/-- Python truthiness of an optional string: falsy when absent or empty. -/
def pyTruthyStr : Option String → Bool
  | none => false
  | some s => !(s == "")

/-- Python truthiness of an optional list: falsy when absent or empty. -/
def pyTruthyList : Option (List String) → Bool
  | none => false
  | some l => !(l.isEmpty)

/-- The external collaborators of app3.py: the two static directory
snapshots, and the `PlayerGameLog` endpoint, called either with a season
label or without one (in which case it returns the current season's log,
most-recent-first). -/
structure Env where
  players : List Player
  teams : List Team
  seasonLog : Nat → String → List GameRecord
  recentLog : Nat → List GameRecord

/-- A record of one `PlayerGameLog` call: the player id and the season
argument (absent for the default last-N fetch). -/
def FetchCall : Type := Nat × Option String
deriving instance DecidableEq for FetchCall

/-- `get_game_logs` from app3.py lines 33-62, together with the list of
`PlayerGameLog` fetches it performs.  Mirrors the source: resolve the
player (Python truthiness on the id); when both an opponent team and a
seasons list are truthy, resolve the team and its abbreviation, fetch
each season's log, filter it by matchup substring, and concatenate;
otherwise fetch the default log and keep the first `last_n_games` rows. -/
def get_game_logs (env : Env) (player_name : String)
    (team_name : Option String) (seasons : Option (List String))
    (last_n_games : Nat) : Option (List GameRecord) × List FetchCall :=
  match get_player_id env.players player_name with
  | none => (none, [])
  | some pid =>
    if pid = 0 then (none, [])
    else if pyTruthyStr team_name && pyTruthyList seasons then
      match get_team_id env.teams (team_name.getD "") with
      | none => (none, [])
      | some tid =>
        if tid = 0 then (none, [])
        else
          match get_team_abbreviation env.teams tid with
          | none => (none, [])
          | some abbr =>
            if abbr = "" then (none, [])
            else
              let sl := seasons.getD []
              let all_logs := sl.map (fun season => matchupFilter abbr (env.seasonLog pid season))
              let calls : List FetchCall := sl.map (fun season => (pid, some season))
              (if all_logs.isEmpty then none else some all_logs.flatten, calls)
    else
      (some ((env.recentLog pid).take last_n_games), [(pid, none)])

/-- Insert a record into a list already sorted by ascending date. -/
def insertByDate (r : GameRecord) : List GameRecord → List GameRecord
  | [] => [r]
  | x :: xs =>
      if x.game_date ≤ r.game_date then x :: insertByDate r xs
      else r :: x :: xs

/-- `df.sort_values("GAME_DATE")` of app3.py lines 79 and 118: sort the
rows by ascending game date (insertion sort; the claims under study do
not depend on how ties are broken). -/
def sortByDate : List GameRecord → List GameRecord
  | [] => []
  | r :: rs => insertByDate r (sortByDate rs)

/-- Arithmetic mean of a list of rationals (`Series.mean()`). -/
def mean (l : List ℚ) : ℚ := l.sum / l.length

/-- A game row extended with the derived composite column
`PRA = PTS + REB + AST` (app3.py line 119). -/
structure PRARecord where
  base : GameRecord
  pra : Int
deriving DecidableEq

/-- `matchup_df["PRA"] = matchup_df["PTS"] + matchup_df["REB"] +
matchup_df["AST"]` of app3.py line 119, applied row by row. -/
def derivePRA (df : List GameRecord) : List PRARecord :=
  df.map (fun r => ⟨r, r.pts + r.reb + r.ast⟩)

/-- Bar color for the points panel, app3.py line 85: the highlight color
exactly when the value strictly exceeds the mean. -/
def colorPts (avg : ℚ) (v : Int) : String :=
  if (v : ℚ) > avg then "#4CAF50" else "#2196F3"

/-- Bar color for the rebounds panel, app3.py line 86. -/
def colorReb (avg : ℚ) (v : Int) : String :=
  if (v : ℚ) > avg then "#FFA726" else "#FFEB3B"

/-- Bar color for the assists panel, app3.py line 87. -/
def colorAst (avg : ℚ) (v : Int) : String :=
  if (v : ℚ) > avg then "#AB47BC" else "#9575CD"

/-- Bar color for the PRA panel, app3.py line 123. -/
def colorPra (avg : ℚ) (v : Int) : String :=
  if (v : ℚ) > avg then "#FF3D00" else "#FF8A65"

/-- The data fed to the three per-stat bar charts (app3.py lines 77-114):
the date-sorted rows, the three means, and the per-bar colors. -/
structure StatPanel where
  rows : List GameRecord
  avg_pts : ℚ
  avg_reb : ℚ
  avg_ast : ℚ
  colors_pts : List String
  colors_reb : List String
  colors_ast : List String
deriving DecidableEq

/-- The PTS/REB/AST chunk of `plot_combined_graphs`, app3.py lines 77-114:
suppressed (`none`) unless the input is present and non-empty; otherwise
sort by date, take the three means, and color each bar against its mean. -/
def last15Panel (df? : Option (List GameRecord)) : Option StatPanel :=
  match df? with
  | none => none
  | some df =>
    if df.isEmpty then none
    else
      let sorted := sortByDate df
      let ap := mean (sorted.map (fun r => (r.pts : ℚ)))
      let ar := mean (sorted.map (fun r => (r.reb : ℚ)))
      let aa := mean (sorted.map (fun r => (r.ast : ℚ)))
      some ⟨sorted, ap, ar, aa,
        sorted.map (fun r => colorPts ap r.pts),
        sorted.map (fun r => colorReb ar r.reb),
        sorted.map (fun r => colorAst aa r.ast)⟩

/-- The data fed to the PRA bar chart (app3.py lines 116-132). -/
structure PraPanel where
  rows : List PRARecord
  avg_pra : ℚ
  colors_pra : List String
deriving DecidableEq

/-- The PRA chunk of `plot_combined_graphs`, app3.py lines 116-132:
suppressed (`none`) unless the input is present and non-empty; otherwise
sort by date, derive the PRA column, take its mean, and color each bar
against it. -/
def matchupPanel (df? : Option (List GameRecord)) : Option PraPanel :=
  match df? with
  | none => none
  | some df =>
    if df.isEmpty then none
    else
      let withPRA := derivePRA (sortByDate df)
      let ap := mean (withPRA.map (fun r => (r.pra : ℚ)))
      some ⟨withPRA, ap, withPRA.map (fun r => colorPra ap r.pra)⟩

/-- Modelled from the spec: rounding a value "to one decimal place"
(spec section 4.4, PredictionResult). -/
def round1 (q : ℚ) : ℚ := (⌊q * 10 + 1 / 2⌋ : ℚ) / 10

/-- Modelled from the spec: the Trend Predictor (spec section 4.4) is not
part of `src/app3.py` — it appears only in other variants of the
repository — so it is reproduced here from the spec's words.  Input: the
chosen statistic of each game in chronological order.  Feature: the
zero-based index of each game.  Model: ordinary least-squares linear
regression of the statistic against the index (closed-form normal-equation
solution; slope 0 when the normal equations degenerate).  Prediction: the
fitted line evaluated at index = (number of games) + 1, rounded to one
decimal.  Empty input signals Unavailable (`none`). -/
def predict_next (ys : List ℚ) : Option ℚ :=
  if ys = [] then none
  else
    let cnt : ℚ := ys.length
    let xs : List ℚ := (List.range ys.length).map (fun (i : ℕ) => (i : ℚ))
    let sx := xs.sum
    let sy := ys.sum
    let sxy := ((xs.zip ys).map (fun p => p.1 * p.2)).sum
    let sxx := (xs.map (fun x => x * x)).sum
    let denom := cnt * sxx - sx * sx
    let slope := if denom = 0 then 0 else (cnt * sxy - sx * sy) / denom
    let intercept := (sy - slope * sx) / cnt
    some (round1 (intercept + slope * (cnt + 1)))

/-- A small concrete player directory used to instantiate the theorems. -/
def demoPlayers : List Player :=
  [⟨"LeBron James", 2544⟩, ⟨"Stephen Curry", 201939⟩]

/-- A small concrete team directory used to instantiate the theorems. -/
def demoTeams : List Team :=
  [⟨"Boston Celtics", 2, "BOS"⟩, ⟨"Golden State Warriors", 10, "GSW"⟩]

/-- A concrete home game against Boston. -/
def recA : GameRecord := ⟨1, "LAL vs. BOS", 20, 5, 7⟩

/-- A concrete away game against Golden State. -/
def recB : GameRecord := ⟨2, "LAL @ GSW", 25, 6, 8⟩

/-- A concrete environment: both fetches return the two demo games. -/
def demoEnv : Env :=
  ⟨demoPlayers, demoTeams, fun _ _ => [recA, recB], fun _ => [recA, recB]⟩

/-- C1: for every player name that case-insensitively equals the
`full_name` of some entry of the player directory, `get_player_id`
returns the id of the first such entry; for every name with no
case-insensitive match it returns `none` (NotFound). -/
theorem get_player_id_resolves (ps : List Player) (name : String) :
    (∀ k, (hk : k < ps.length) →
      strLower (ps.get ⟨k, hk⟩).full_name = strLower name →
      (∀ j, (hj : j < k) → strLower (ps.get ⟨j, hj.trans hk⟩).full_name ≠ strLower name) →
      get_player_id ps name = some (ps.get ⟨k, hk⟩).id) ∧
    ((∀ p ∈ ps, strLower p.full_name ≠ strLower name) → get_player_id ps name = none) := by
  induction ps with
  | nil =>
      refine ⟨fun k hk => absurd hk (Nat.not_lt_zero k), fun _ => rfl⟩
  | cons p rest ih =>
      constructor
      · intro k hk hmatch hfirst
        cases k with
        | zero =>
            simp only [List.get] at hmatch ⊢
            simp [get_player_id, hmatch]
        | succ k' =>
            have hne : strLower p.full_name ≠ strLower name := hfirst 0 (Nat.succ_pos k')
            simp only [List.get] at hmatch ⊢
            rw [get_player_id, if_neg hne]
            exact ih.1 k' (Nat.lt_of_succ_lt_succ hk) hmatch
              (fun j hj => hfirst (j + 1) (Nat.succ_lt_succ hj))
      · intro hall
        have hne := hall p (List.mem_cons_self p rest)
        rw [get_player_id, if_neg hne]
        exact ih.2 (fun q hq => hall q (List.mem_cons_of_mem p hq))

/-- Witness for C1 at a concrete directory: a differently-cased name
resolves to the first matching entry's id, and an absent name to `none`. -/
theorem get_player_id_resolves_w :
    get_player_id demoPlayers "LEBRON JAMES" = some 2544 ∧
    get_player_id demoPlayers "Nobody" = none := by
  constructor
  · exact (get_player_id_resolves demoPlayers "LEBRON JAMES").1 0 (by decide)
      (by decide) (fun j hj => absurd hj (Nat.not_lt_zero j))
  · exact (get_player_id_resolves demoPlayers "Nobody").2 (by decide)

/-- C3: when the player name (or, on the team branch, the team name)
resolves to NotFound, `get_game_logs` returns `none` and performs no
`PlayerGameLog` fetch at all. -/
theorem get_game_logs_notfound (env : Env) (pname : String)
    (team_name : Option String) (seasons : Option (List String)) (n : Nat) :
    (get_player_id env.players pname = none →
      get_game_logs env pname team_name seasons n = (none, [])) ∧
    (∀ pid, get_player_id env.players pname = some pid → pid ≠ 0 →
      pyTruthyStr team_name = true → pyTruthyList seasons = true →
      get_team_id env.teams (team_name.getD "") = none →
      get_game_logs env pname team_name seasons n = (none, [])) := by
  constructor
  · intro h
    simp [get_game_logs, h]
  · intro pid h1 h2 h3 h4 h5
    simp [get_game_logs, h1, h2, h3, h4, h5]

/-- Witness for C3: an unknown player short-circuits, and a known player
with an unknown opponent team short-circuits, each with no fetch. -/
theorem get_game_logs_notfound_w :
    get_game_logs demoEnv "Nobody" (some "Boston Celtics") (some ["2024-25"]) 15
      = (none, []) ∧
    get_game_logs demoEnv "LeBron James" (some "Atlantis") (some ["2024-25"]) 15
      = (none, []) := by
  constructor
  · exact (get_game_logs_notfound demoEnv "Nobody" (some "Boston Celtics")
      (some ["2024-25"]) 15).1 (by decide)
  · exact (get_game_logs_notfound demoEnv "LeBron James" (some "Atlantis")
      (some ["2024-25"]) 15).2 2544 (by decide) (by decide) (by decide) (by decide)
      (by decide)

/-- C9: without a truthy opponent-and-seasons pair, `get_game_logs`
returns exactly the first `last_n_games` rows of the most-recent-first
source log, hence at most `last_n_games` rows; with every optional
argument left at its default it returns at most 15 rows. -/
theorem get_game_logs_lastN (env : Env) (pname : String)
    (team_name : Option String) (seasons : Option (List String)) (n : Nat)
    (pid : Nat) (h1 : get_player_id env.players pname = some pid) (h2 : pid ≠ 0)
    (h3 : (pyTruthyStr team_name && pyTruthyList seasons) = false) :
    (get_game_logs env pname team_name seasons n).1
      = some ((env.recentLog pid).take n) ∧
    (∀ l, (get_game_logs env pname team_name seasons n).1 = some l →
      l.length ≤ n) ∧
    (get_game_logs env pname none none 15).1
      = some ((env.recentLog pid).take 15) ∧
    (∀ l, (get_game_logs env pname none none 15).1 = some l → l.length ≤ 15) := by
  have hmain : (get_game_logs env pname team_name seasons n).1
      = some ((env.recentLog pid).take n) := by
    simp [get_game_logs, h1, h2, h3]
  have hdef : (get_game_logs env pname none none 15).1
      = some ((env.recentLog pid).take 15) := by
    simp [get_game_logs, h1, h2, pyTruthyStr]
  refine ⟨hmain, ?_, hdef, ?_⟩
  · intro l hl
    rw [hmain] at hl
    cases hl
    simp [Nat.min_le_left]
  · intro l hl
    rw [hdef] at hl
    cases hl
    simp [Nat.min_le_left]

/-- Witness for C9: with no opponent, the demo player's log is truncated
to the first `last_n_games` rows. -/
theorem get_game_logs_lastN_w :
    (get_game_logs demoEnv "LeBron James" none none 1).1 = some [recA] ∧
    (get_game_logs demoEnv "LeBron James" none none 15).1 = some [recA, recB] := by
  have h := get_game_logs_lastN demoEnv "LeBron James" none none 1 2544
    (by decide) (by decide) (by decide)
  exact ⟨h.1, h.2.2.1⟩

/-- C10: when a truthy opponent team is supplied but `seasons` is absent
or empty, the opponent filter is silently ignored: the call behaves
exactly like a call without a team and returns the unfiltered last `n`
games. -/
theorem get_game_logs_ignores_team (env : Env) (pname : String)
    (team_name : Option String) (seasons : Option (List String)) (n : Nat)
    (pid : Nat) (h1 : get_player_id env.players pname = some pid) (h2 : pid ≠ 0)
    (h3 : pyTruthyStr team_name = true)
    (h4 : seasons = none ∨ seasons = some []) :
    get_game_logs env pname team_name seasons n
      = get_game_logs env pname none none n ∧
    (get_game_logs env pname team_name seasons n).1
      = some ((env.recentLog pid).take n) := by
  rcases h4 with h4 | h4 <;> subst h4 <;>
    simp [get_game_logs, h1, h2, h3, pyTruthyList]

/-- Witness for C10: a real team with an empty seasons list is ignored
and the unfiltered recent log comes back. -/
theorem get_game_logs_ignores_team_w :
    get_game_logs demoEnv "LeBron James" (some "Boston Celtics") (some []) 15
      = get_game_logs demoEnv "LeBron James" none none 15 ∧
    (get_game_logs demoEnv "LeBron James" (some "Boston Celtics") (some []) 15).1
      = some [recA, recB] := by
  have h := get_game_logs_ignores_team demoEnv "LeBron James"
    (some "Boston Celtics") (some []) 15 2544 (by decide) (by decide) (by decide)
    (Or.inr rfl)
  exact ⟨h.1, by rw [h.2]; decide⟩

/-- C4: with an opponent team supplied (and resolved), a game record is
kept by `get_game_logs` exactly when its matchup string contains the
resolved team's abbreviation as a substring. -/
theorem get_game_logs_opponent_filter (env : Env) (pname tn : String)
    (sl : List String) (n : Nat) (pid tid : Nat) (abbr : String)
    (h1 : get_player_id env.players pname = some pid) (h2 : pid ≠ 0)
    (h3 : tn ≠ "") (h4 : sl ≠ [])
    (h5 : get_team_id env.teams tn = some tid) (h6 : tid ≠ 0)
    (h7 : get_team_abbreviation env.teams tid = some abbr) (h8 : abbr ≠ "") :
    ((get_game_logs env pname (some tn) (some sl) n).1.isSome = true) ∧
    (∀ r : GameRecord,
      r ∈ ((get_game_logs env pname (some tn) (some sl) n).1.getD []) ↔
        ∃ s ∈ sl, r ∈ env.seasonLog pid s ∧ strContains r.matchup abbr = true) := by
  have hres : (get_game_logs env pname (some tn) (some sl) n).1
      = some ((sl.map (fun season => matchupFilter abbr (env.seasonLog pid season))).flatten) := by
    simp [get_game_logs, h1, h2, h3, h4, h5, h6, h7, h8, pyTruthyStr, pyTruthyList]
  constructor
  · rw [hres]; rfl
  · intro r
    rw [hres]
    simp only [Option.getD_some, List.mem_flatten, List.mem_map]
    constructor
    · rintro ⟨l, ⟨s, hs, rfl⟩, hr⟩
      rw [matchupFilter, List.mem_filter] at hr
      exact ⟨s, hs, hr.1, hr.2⟩
    · rintro ⟨s, hs, hr, hc⟩
      exact ⟨matchupFilter abbr (env.seasonLog pid s), ⟨s, hs, rfl⟩,
        by rw [matchupFilter, List.mem_filter]; exact ⟨hr, hc⟩⟩

/-- Witness for C4: against Boston, the home game whose matchup mentions
BOS survives and the Golden State game does not. -/
theorem get_game_logs_opponent_filter_w :
    recA ∈ ((get_game_logs demoEnv "LeBron James" (some "Boston Celtics")
      (some ["2024-25"]) 15).1.getD []) ∧
    recB ∉ ((get_game_logs demoEnv "LeBron James" (some "Boston Celtics")
      (some ["2024-25"]) 15).1.getD []) := by
  have h := get_game_logs_opponent_filter demoEnv "LeBron James" "Boston Celtics"
    ["2024-25"] 15 2544 2 "BOS" (by decide) (by decide) (by decide) (by decide)
    (by decide) (by decide) (by decide) (by decide)
  constructor
  · exact (h.2 recA).2 ⟨"2024-25", by decide, by decide, by decide⟩
  · intro hmem
    rcases (h.2 recB).1 hmem with ⟨s, -, -, hc⟩
    exact absurd hc (by decide)

/-- C6: the opponent filter used by `get_game_logs` is an order-preserving
subsequence selection: for every input game log and every abbreviation,
the surviving records form a sublist (subsequence in the original order)
of the input. -/
theorem matchupFilter_sublist (abbr : String) (df : List GameRecord) :
    List.Sublist (matchupFilter abbr df) df :=
  List.filter_sublist df

/-- Inserting one record grows the length by one. -/
theorem length_insertByDate (r : GameRecord) (l : List GameRecord) :
    (insertByDate r l).length = l.length + 1 := by
  induction l with
  | nil => rfl
  | cons x xs ih =>
      rw [insertByDate]
      split
      · simp [ih]
      · rfl

/-- Sorting by date preserves the number of rows. -/
theorem length_sortByDate (l : List GameRecord) :
    (sortByDate l).length = l.length := by
  induction l with
  | nil => rfl
  | cons x xs ih => rw [sortByDate, length_insertByDate, ih, List.length_cons]

/-- C5: after the composite column is derived, `PRA = PTS + REB + AST`
holds exactly for every record of the PRA panel. -/
theorem derivePRA_correct (df? : Option (List GameRecord)) (p : PraPanel)
    (h : matchupPanel df? = some p) :
    ∀ r ∈ p.rows, r.pra = r.base.pts + r.base.reb + r.base.ast := by
  match df? with
  | none => exact absurd h (by simp [matchupPanel])
  | some df =>
    rw [matchupPanel] at h
    by_cases hdf : df.isEmpty
    · rw [if_pos hdf] at h; cases h
    · rw [if_neg hdf] at h
      cases h
      intro r hr
      rw [derivePRA, List.mem_map] at hr
      rcases hr with ⟨x, -, rfl⟩
      rfl

/-- Witness for C5 at a concrete one-game log: the derived PRA entry
equals the sum of the three stats. -/
theorem derivePRA_correct_w :
    (⟨recA, 32⟩ : PRARecord).pra = recA.pts + recA.reb + recA.ast := by
  have h := derivePRA_correct (some [recA]) ⟨[⟨recA, 32⟩], 32, ["#FF8A65"]⟩
    (by simp [matchupPanel, sortByDate, insertByDate, derivePRA, mean, colorPra, recA])
  exact h ⟨recA, 32⟩ (by decide)

/-- C7: an absent or empty record set suppresses the dependent chart
panels, and a displayed panel's means are computed over its own, provably
non-empty, row set — never over an empty one. -/
theorem empty_suppresses_panels (df : List GameRecord) (p : StatPanel)
    (q : PraPanel) (h1 : last15Panel (some df) = some p)
    (h2 : matchupPanel (some df) = some q) :
    last15Panel none = none ∧ matchupPanel none = none ∧
    last15Panel (some ([] : List GameRecord)) = none ∧
    matchupPanel (some ([] : List GameRecord)) = none ∧
    p.rows ≠ [] ∧ q.rows ≠ [] ∧
    p.avg_pts = mean (p.rows.map (fun r => (r.pts : ℚ))) ∧
    p.avg_reb = mean (p.rows.map (fun r => (r.reb : ℚ))) ∧
    p.avg_ast = mean (p.rows.map (fun r => (r.ast : ℚ))) ∧
    q.avg_pra = mean (q.rows.map (fun r => (r.pra : ℚ))) := by
  rw [last15Panel] at h1
  rw [matchupPanel] at h2
  by_cases hdf : df.isEmpty
  · rw [if_pos hdf] at h1; cases h1
  · rw [if_neg hdf] at h1
    rw [if_neg hdf] at h2
    cases h1
    cases h2
    have hlen : (sortByDate df).length = df.length := length_sortByDate df
    have hne : sortByDate df ≠ [] := by
      intro hnil
      rw [hnil] at hlen
      rw [List.isEmpty_iff] at hdf
      exact hdf (List.eq_nil_of_length_eq_zero hlen.symm)
    refine ⟨rfl, rfl, rfl, rfl, hne, ?_, rfl, rfl, rfl, rfl⟩
    rw [derivePRA]
    simp [hne]

/-- Witness for C7 at a concrete one-game log: the empty and absent
cases are suppressed, and the displayed panels have non-empty rows with
means over exactly those rows. -/
theorem empty_suppresses_panels_w :
    last15Panel none = none ∧ matchupPanel none = none ∧
    last15Panel (some ([] : List GameRecord)) = none ∧
    matchupPanel (some ([] : List GameRecord)) = none ∧
    (⟨[recA], 20, 5, 7, ["#2196F3"], ["#FFEB3B"], ["#9575CD"]⟩ : StatPanel).rows ≠ [] ∧
    (⟨[⟨recA, 32⟩], 32, ["#FF8A65"]⟩ : PraPanel).rows ≠ [] ∧
    (⟨[recA], 20, 5, 7, ["#2196F3"], ["#FFEB3B"], ["#9575CD"]⟩ : StatPanel).avg_pts
      = mean ([recA].map (fun r => (r.pts : ℚ))) ∧
    (⟨[recA], 20, 5, 7, ["#2196F3"], ["#FFEB3B"], ["#9575CD"]⟩ : StatPanel).avg_reb
      = mean ([recA].map (fun r => (r.reb : ℚ))) ∧
    (⟨[recA], 20, 5, 7, ["#2196F3"], ["#FFEB3B"], ["#9575CD"]⟩ : StatPanel).avg_ast
      = mean ([recA].map (fun r => (r.ast : ℚ))) ∧
    (⟨[⟨recA, 32⟩], 32, ["#FF8A65"]⟩ : PraPanel).avg_pra
      = mean ([(⟨recA, 32⟩ : PRARecord)].map (fun r => (r.pra : ℚ))) :=
  empty_suppresses_panels [recA]
    ⟨[recA], 20, 5, 7, ["#2196F3"], ["#FFEB3B"], ["#9575CD"]⟩
    ⟨[⟨recA, 32⟩], 32, ["#FF8A65"]⟩
    (by simp [last15Panel, sortByDate, insertByDate, mean, colorPts, colorReb,
      colorAst, recA])
    (by simp [matchupPanel, sortByDate, insertByDate, derivePRA, mean, colorPra, recA])

/-- C8: threshold coloring assigns the "above" color exactly when the
value strictly exceeds the mean; a value equal to the mean gets the
"below" color, in all four panels. -/
theorem threshold_coloring (avg : ℚ) (v : Int) :
    (colorPts avg v = "#4CAF50" ↔ avg < (v : ℚ)) ∧
    (colorReb avg v = "#FFA726" ↔ avg < (v : ℚ)) ∧
    (colorAst avg v = "#AB47BC" ↔ avg < (v : ℚ)) ∧
    (colorPra avg v = "#FF3D00" ↔ avg < (v : ℚ)) ∧
    ((v : ℚ) = avg → colorPts avg v = "#2196F3" ∧ colorReb avg v = "#FFEB3B" ∧
      colorAst avg v = "#9575CD" ∧ colorPra avg v = "#FF8A65") := by
  rw [colorPts, colorReb, colorAst, colorPra]
  by_cases h : avg < (v : ℚ)
  · rw [if_pos h, if_pos h, if_pos h, if_pos h]
    refine ⟨by simp [h], by simp [h], by simp [h], by simp [h], fun he => ?_⟩
    rw [he] at h
    exact absurd h (lt_irrefl avg)
  · rw [if_neg h, if_neg h, if_neg h, if_neg h]
    exact ⟨by simp [h], by simp [h], by simp [h], by simp [h],
      fun _ => ⟨rfl, rfl, rfl, rfl⟩⟩

/-- Witness for C8: a value exactly equal to the mean falls in the
"below" category in every panel. -/
theorem threshold_coloring_w :
    colorPts 5 5 = "#2196F3" ∧ colorReb 5 5 = "#FFEB3B" ∧
    colorAst 5 5 = "#9575CD" ∧ colorPra 5 5 = "#FF8A65" :=
  (threshold_coloring 5 5).2.2.2.2 (by decide)

/-- Sum of the cast indices 0..n-1. -/
theorem sum_range_cast (n : ℕ) :
    ((List.range n).map (fun (i : ℕ) => (i : ℚ))).sum = (n : ℚ) * ((n : ℚ) - 1) / 2 := by
  induction n with
  | zero => simp
  | succ k ih =>
      rw [List.range_succ, List.map_append, List.sum_append, ih]
      simp only [List.map_cons, List.map_nil, List.sum_cons, List.sum_nil, add_zero]
      push_cast
      ring

/-- Sum of the squared cast indices 0..n-1. -/
theorem sum_range_cast_sq (n : ℕ) :
    ((List.range n).map (fun (i : ℕ) => (i : ℚ) * (i : ℚ))).sum
      = (n : ℚ) * ((n : ℚ) - 1) * (2 * (n : ℚ) - 1) / 6 := by
  induction n with
  | zero => simp
  | succ k ih =>
      rw [List.range_succ, List.map_append, List.sum_append, ih]
      simp only [List.map_cons, List.map_nil, List.sum_cons, List.sum_nil, add_zero]
      push_cast
      ring

/-- Sum of an affine sequence over the indices 0..n-1. -/
theorem sum_range_lin (n : ℕ) (c m : ℚ) :
    ((List.range n).map (fun (i : ℕ) => c + m * (i : ℚ))).sum
      = (n : ℚ) * c + m * ((n : ℚ) * ((n : ℚ) - 1) / 2) := by
  induction n with
  | zero => simp
  | succ k ih =>
      rw [List.range_succ, List.map_append, List.sum_append, ih]
      simp only [List.map_cons, List.map_nil, List.sum_cons, List.sum_nil, add_zero]
      push_cast
      ring

/-- Sum of index times affine value over the indices 0..n-1. -/
theorem sum_range_idx_lin (n : ℕ) (c m : ℚ) :
    ((List.range n).map (fun (i : ℕ) => (i : ℚ) * (c + m * (i : ℚ)))).sum
      = c * ((n : ℚ) * ((n : ℚ) - 1) / 2)
        + m * ((n : ℚ) * ((n : ℚ) - 1) * (2 * (n : ℚ) - 1) / 6) := by
  induction n with
  | zero => simp
  | succ k ih =>
      rw [List.range_succ, List.map_append, List.sum_append, ih]
      simp only [List.map_cons, List.map_nil, List.sum_cons, List.sum_nil, add_zero]
      push_cast
      ring

/-- Evaluating the closed-form least-squares fit at N + 1: whenever the
raw sums satisfy the exact-linear-data relations, the fitted line is the
data's own line, so its value at N + 1 is c + m (N + 1). -/
theorem ols_predict (N SX SY SXY SXX c m : ℚ) (hN : N ≠ 0)
    (hD : N * SXX - SX * SX ≠ 0)
    (hSY : SY = N * c + m * SX)
    (hSXY : N * SXY - SX * SY = m * (N * SXX - SX * SX)) :
    (SY - (if N * SXX - SX * SX = 0 then 0
        else (N * SXY - SX * SY) / (N * SXX - SX * SX)) * SX) / N
      + (if N * SXX - SX * SX = 0 then 0
        else (N * SXY - SX * SY) / (N * SXX - SX * SX)) * (N + 1)
      = c + m * (N + 1) := by
  rw [if_neg hD, hSXY, mul_div_assoc, div_self hD, mul_one, hSY]
  field_simp

/-- C2: the spec-modelled `predict_next` fits an ordinary least-squares
line of the statistic against the zero-based game index and evaluates it
at index = (number of games) + 1, rounded to one decimal: on exactly
affine data c + m·i over n ≥ 2 games the prediction is
round1 (c + m (n + 1)) — the off-by-one extrapolation two steps past the
last observed game. -/
theorem predict_next_linear (n : ℕ) (c m : ℚ) (hn : 2 ≤ n) :
    predict_next ((List.range n).map (fun (i : ℕ) => c + m * (i : ℚ)))
      = some (round1 (c + m * ((n : ℚ) + 1))) := by
  have hn0 : n ≠ 0 := by omega
  have hne : (List.range n).map (fun (i : ℕ) => c + m * (i : ℚ)) ≠ [] := by
    simp [hn0]
  have hlen : ((List.range n).map (fun (i : ℕ) => c + m * (i : ℚ))).length = n := by simp
  have hNQ : (2 : ℚ) ≤ (n : ℚ) := by exact_mod_cast hn
  have hN0 : ((n : ℚ)) ≠ 0 := by
    intro h0
    rw [h0] at hNQ
    norm_num at hNQ
  have hzip : (((List.range n).map (fun (i : ℕ) => (i : ℚ))).zip
        ((List.range n).map (fun (i : ℕ) => c + m * (i : ℚ)))).map (fun p => p.1 * p.2)
      = (List.range n).map (fun (i : ℕ) => (i : ℚ) * (c + m * (i : ℚ))) := by
    rw [List.zip_map', List.map_map]
    rfl
  have hsq : ((List.range n).map (fun (i : ℕ) => (i : ℚ))).map (fun x => x * x)
      = (List.range n).map (fun (i : ℕ) => (i : ℚ) * (i : ℚ)) := by
    rw [List.map_map]
    rfl
  have hD : (n : ℚ) * (((List.range n).map (fun (i : ℕ) => (i : ℚ))).map (fun x => x * x)).sum
      - ((List.range n).map (fun (i : ℕ) => (i : ℚ))).sum
        * ((List.range n).map (fun (i : ℕ) => (i : ℚ))).sum ≠ 0 := by
    rw [hsq, sum_range_cast_sq, sum_range_cast]
    have key : (n : ℚ) * ((n : ℚ) * ((n : ℚ) - 1) * (2 * (n : ℚ) - 1) / 6)
        - ((n : ℚ) * ((n : ℚ) - 1) / 2) * ((n : ℚ) * ((n : ℚ) - 1) / 2)
        = (n : ℚ) * (n : ℚ) * ((n : ℚ) - 1) * ((n : ℚ) + 1) / 12 := by ring
    rw [key]
    have h1 : (0 : ℚ) < (n : ℚ) := by linarith
    have h2 : (0 : ℚ) < (n : ℚ) - 1 := by linarith
    have h3 : (0 : ℚ) < (n : ℚ) + 1 := by linarith
    exact ne_of_gt (div_pos (mul_pos (mul_pos (mul_pos h1 h1) h2) h3) (by norm_num))
  rw [predict_next, if_neg hne]
  simp only [hlen, hzip, hsq]
  congr 1
  congr 1
  apply ols_predict _ _ _ _ _ _ _ hN0
  · rw [sum_range_cast_sq, sum_range_cast]
    have key : (n : ℚ) * ((n : ℚ) * ((n : ℚ) - 1) * (2 * (n : ℚ) - 1) / 6)
        - ((n : ℚ) * ((n : ℚ) - 1) / 2) * ((n : ℚ) * ((n : ℚ) - 1) / 2)
        = (n : ℚ) * (n : ℚ) * ((n : ℚ) - 1) * ((n : ℚ) + 1) / 12 := by ring
    rw [key]
    have h1 : (0 : ℚ) < (n : ℚ) := by linarith
    have h2 : (0 : ℚ) < (n : ℚ) - 1 := by linarith
    have h3 : (0 : ℚ) < (n : ℚ) + 1 := by linarith
    exact ne_of_gt (div_pos (mul_pos (mul_pos (mul_pos h1 h1) h2) h3) (by norm_num))
  · rw [sum_range_lin, sum_range_cast]
  · rw [sum_range_idx_lin, sum_range_cast, sum_range_lin, sum_range_cast_sq]
    ring

/-- Witness for C2: the spec's own example — points 10,12,14,16,18 over
five sequential games predict 22.0 (the fit y = 10 + 2x evaluated at
index 6). -/
theorem predict_next_linear_w :
    predict_next [(10 : ℚ), 12, 14, 16, 18] = some 22 := by
  have h := predict_next_linear 5 10 2 (by decide)
  have hl : (List.range 5).map (fun (i : ℕ) => (10 : ℚ) + 2 * (i : ℚ))
      = [10, 12, 14, 16, 18] := by
    simp [List.range_succ]
    norm_num
  rw [hl] at h
  rw [h]
  have hv : (10 : ℚ) + 2 * ((5 : ℕ) + 1 : ℚ) = 22 := by norm_num
  rw [show ((5 : ℕ) : ℚ) + 1 = ((5 : ℕ) + 1 : ℚ) by norm_num] at h ⊢
  rw [hv]
  have hf : ⌊(22 : ℚ) * 10 + 1 / 2⌋ = 220 := by
    apply Int.floor_eq_iff.mpr
    constructor
    · norm_num
    · norm_num
  rw [round1, hf]
  norm_num

end App3
